import Mathlib

/-!
Verification development for the configuration core of `readmeai`
(`readmeai/config/settings.py`).

The Python source is shallowly embedded: pure string manipulation is
modelled over `List Char`, fallible validators return `Except String`,
and the single filesystem query `Path(value).is_dir()` is passed in as an
explicit boolean parameter (both `is_dir` checks made during one
`GitSettings` construction are on the same string, hence one flag).
-/

/-- Substring/prefix test over character lists: `isPrefixL n h` holds when
`n` is a prefix of `h` (Python `h.startswith(n)` fragment used below). -/
def isPrefixL : List Char → List Char → Bool
  | [], _ => true
  | _ :: _, [] => false
  | a :: as, b :: bs => a == b && isPrefixL as bs

/-- Python substring containment `needle in hay` for strings. -/
def containsSub (needle hay : List Char) : Bool :=
  match hay with
  | [] => needle.isEmpty
  | _ :: t => isPrefixL needle hay || containsSub needle t

/-- Characters allowed in a URL scheme, mirroring `urllib.parse.scheme_chars`
(ASCII letters, digits, `+`, `-`, `.`). -/
def schemeChar (c : Char) : Bool :=
  c.isAlpha || c.isDigit || c == '+' || c == '-' || c == '.'

/-- Result of splitting a URL: the fields of `urllib.parse.urlsplit` that
`settings.py` reads (`scheme`, `netloc`, `path`). -/
structure SplitResult where
  scheme : List Char
  netloc : List Char
  path : List Char
deriving DecidableEq

/-- Embedding of CPython `urllib.parse.urlsplit` restricted to the three
fields used by the source: strip `\t\r\n`, detect a scheme (first `:` with a
leading ASCII letter and only scheme characters before it, lowercased),
extract the netloc after `//` up to the first of `/?#`, reject unmatched
IPv6 brackets in the netloc with `ValueError` (modelled as `none`), then cut
fragment (`#`) and query (`?`) off the remaining path.  The non-ASCII NFKC
netloc check of CPython is omitted; all inputs considered here are ASCII.
`urlparse` only differs from `urlsplit` in the params field, which the
source never reads, so one embedding serves both call sites. -/
def pyUrlsplit (url0 : List Char) : Option SplitResult :=
  let url := url0.filter (fun c => !(c == '\t' || c == '\r' || c == '\n'))
  let pre := url.takeWhile (fun c => !(c == ':'))
  let schemeFound := url.contains ':' && !pre.isEmpty &&
      pre.all schemeChar && (pre.headD ' ').isAlpha
  let scheme := if schemeFound then pre.map Char.toLower else []
  let rest := if schemeFound then url.drop (pre.length + 1) else url
  let hasNetloc := rest.take 2 == ['/', '/']
  let netloc :=
    if hasNetloc then
      (rest.drop 2).takeWhile (fun c => !(c == '/' || c == '?' || c == '#'))
    else []
  let rest2 := if hasNetloc then (rest.drop 2).drop netloc.length else rest
  if (netloc.contains '[' && !netloc.contains ']') ||
      (netloc.contains ']' && !netloc.contains '[') then
    none
  else
    some ⟨scheme, netloc,
      (rest2.takeWhile (fun c => !(c == '#'))).takeWhile (fun c => !(c == '?'))⟩

/-- One Git service entry of the `GitService` enum in `settings.py`
(lines 18-47): host string, optional API base URL, file-blob URL template. -/
structure GitServiceDescriptor where
  host : String
  api_url : Option String
  file_url : String
deriving DecidableEq

/-- `GitService.LOCAL` (settings.py line 23). -/
def GitService.LOCAL : GitServiceDescriptor :=
  ⟨"local", none, "\x7bfile_path\x7d"⟩

/-- `GitService.GITHUB` (settings.py lines 24-28). -/
def GitService.GITHUB : GitServiceDescriptor :=
  ⟨"github.com", some ("https://api.github.com/repos/"),
    "https://github.com/\x7bfull_name\x7d/blob/main/\x7bfile_path\x7d"⟩

/-- `GitService.GITLAB` (settings.py lines 29-33). -/
def GitService.GITLAB : GitServiceDescriptor :=
  ⟨"gitlab.com", some ("https://api.gitlab.com/v4/projects/"),
    "https://gitlab.com/\x7bfull_name\x7d/-/blob/master/\x7bfile_path\x7d"⟩

/-- `GitService.BITBUCKET` (settings.py lines 34-38). -/
def GitService.BITBUCKET : GitServiceDescriptor :=
  ⟨"bitbucket.org", some ("https://api.bitbucket.org/2.0/repositories/"),
    "https://bitbucket.org/\x7bfull_name\x7d/src/master/\x7bfile_path\x7d"⟩

/-- The registry, in Python enum iteration order (`for service in GitService`):
LOCAL, GITHUB, GITLAB, BITBUCKET. -/
def gitServices : List GitServiceDescriptor :=
  [GitService.LOCAL, GitService.GITHUB, GitService.GITLAB, GitService.BITBUCKET]

/-- `any(service.host in parsed_url.netloc for service in GitService)`
(settings.py lines 119-121). -/
def hostMatch (netloc : List Char) : Bool :=
  gitServices.any (fun s => containsSub s.host.data netloc)

/-- A fully constructed `GitSettings` model: `repository`, the derived
`source` and the derived `name` (settings.py lines 101-106; the two
`Optional` fields are always set to strings by their validators). -/
structure GitSettings where
  repository : String
  source : String
  name : String
deriving DecidableEq

/-- `GitSettings.validate_repository` (settings.py lines 108-124).
`isDir` stands for `Path(value).is_dir()`.  A `ValueError` out of
`urlparse` (unmatched IPv6 bracket, `pyUrlsplit = none`) is caught and
re-raised with the same message as a failed scheme/host check. -/
def GitSettings.validate_repository (isDir : Bool) (value : String) :
    Except String String :=
  if isDir then .ok value
  else
    match pyUrlsplit value.data with
    | none => .error ("Invalid repository URL or path: " ++ value)
    | some u =>
      if u.scheme = "https".data ∧ hostMatch u.netloc = true then .ok value
      else .error ("Invalid repository URL or path: " ++ value)

/-- `GitSettings.set_source` (settings.py lines 126-139): local directories
map to the LOCAL host, otherwise the first registry entry whose host is a
substring of the netloc wins; the Python `for`/`return` loop is the
first-match search `List.find?`.  An uncaught `urlparse` `ValueError` is an
error as well. -/
def GitSettings.set_source (isDir : Bool) (repo : String) :
    Except String String :=
  if isDir then .ok GitService.LOCAL.host
  else
    match pyUrlsplit repo.data with
    | none => .error ("Invalid IPv6 URL")
    | some u =>
      match gitServices.find? (fun s => containsSub s.host.data u.netloc) with
      | some s => .ok s.host
      | none => .error ("Unsupported Git service.")

/-- The name computation of `set_name`'s matching branch (settings.py lines
148-152): `path.rsplit("/", 1)[-1] if "/" in path else path`, then strip a
trailing `.git` (`name[:-4]`). -/
def nameFromPath (path : List Char) : List Char :=
  let name :=
    if path.contains '/' then (path.reverse.takeWhile (fun c => !(c == '/'))).reverse
    else path
  if isPrefixL (".git".data.reverse) name.reverse then name.take (name.length - 4)
  else name

/-- `PurePosixPath(s).name`: last path component, with empty and `.`
components discarded (used by `set_name`'s fallback, settings.py line 154). -/
def pathName (s : String) : String :=
  (((s.splitOn "/").filter (fun p => p ≠ "" ∧ p ≠ ".")).getLast?).getD ""

/-- `GitSettings.set_name` (settings.py lines 141-154): the loop body is
independent of the matched service, so the `for` loop reduces to a
first-match test; the fallback is `Path(repo).name`. -/
def GitSettings.set_name (repo : String) : Except String String :=
  match pyUrlsplit repo.data with
  | none => .error ("Invalid IPv6 URL")
  | some u =>
    match gitServices.find? (fun s => containsSub s.host.data u.netloc) with
    | some _ => .ok (String.mk (nameFromPath u.path))
    | none => .ok (pathName repo)

/-- Construction of a `GitSettings` model: pydantic runs the three
validators in field order `repository`, `source`, `name`; each later field
reads the already-validated `repository` (which `validate_repository`
returns unchanged), and any validator error makes the construction fail. -/
def GitSettings.resolve (isDir : Bool) (repository : String) :
    Except String GitSettings :=
  match GitSettings.validate_repository isDir repository with
  | .error e => .error e
  | .ok repo =>
    match GitSettings.set_source isDir repo with
    | .error e => .error e
    | .ok src =>
      match GitSettings.set_name repo with
      | .error e => .error e
      | .ok nm => .ok ⟨repo, src, nm⟩

/-- The placeholder `\x7bfull_name\x7d` of the file-URL templates. -/
def fullNamePat : List Char := "\x7bfull_name\x7d".data

/-- The placeholder `\x7bfile_path\x7d` of the file-URL templates. -/
def filePathPat : List Char := "\x7bfile_path\x7d".data

/-- Scan-and-substitute of the two placeholders, fuelled by the template
length (each step consumes at least one character).  Substituted text is
not rescanned, as with Python `str.format`. -/
def substAux (fn fp : List Char) : Nat → List Char → List Char
  | 0, rest => rest
  | _ + 1, [] => []
  | fuel + 1, c :: rest =>
    if isPrefixL fullNamePat (c :: rest) then
      fn ++ substAux fn fp fuel ((c :: rest).drop fullNamePat.length)
    else if isPrefixL filePathPat (c :: rest) then
      fp ++ substAux fn fp fuel ((c :: rest).drop filePathPat.length)
    else c :: substAux fn fp fuel rest

/-- `template.format(full_name=fn, file_path=fp)` for the templates above
(which contain no brace escapes). -/
def substTemplate (tpl fn fp : List Char) : List Char :=
  substAux fn fp tpl.length tpl

/-- Modelled from the spec: `readmeai/services/git_utilities.py` (the
`RemoteFileUrlBuilder`, sec. 4.3) is not under `src/`, only its unit test
is.  Per the spec, `buildFileUrl` resolves the repository to its matching
service descriptor — the same registry first-match used by `resolve` — and
substitutes `full_name` and `file_path` into that descriptor's file-URL
template; it fails with the error kinds of `resolve` when the repository
cannot be classified.  The templates themselves are taken from the
`GitService` enum in `settings.py`. -/
def get_remote_file_url (file_path full_name repository : String) :
    Except String String :=
  match pyUrlsplit repository.data with
  | none => .error ("Invalid repository URL or path: " ++ repository)
  | some u =>
    match gitServices.find? (fun s => containsSub s.host.data u.netloc) with
    | some s =>
      .ok (String.mk (substTemplate s.file_url.data full_name.data file_path.data))
    | none => .error ("Invalid repository URL or path: " ++ repository)

/-- A generic mapping obtained by reading one auxiliary TOML document
(`_get_config_dict`), restricted to the four keys `load_helper_files`
recognizes; `none` models the key being absent from the document.
Sub-mappings are association lists in document order. -/
structure ConfDict where
  dependency_files : Option (List String)
  ignore_files : Option (List (String × List String))
  language_names : Option (List (String × String))
  language_setup : Option (List (String × List String))
deriving DecidableEq

/-- The four accumulator fields of `ConfigHelper` (settings.py lines
226-229), with Python dicts modelled as insertion-ordered association
lists; all four default to empty. -/
structure ConfigHelper where
  dependency_files : List String
  ignore_files : List (String × List String)
  language_names : List (String × String)
  language_setup : List (String × List String)
deriving DecidableEq

/-- The empty `ConfigHelper` accumulator (the field defaults `[]`/`{}`). -/
def ConfigHelper.empty : ConfigHelper := ⟨[], [], [], []⟩

/-- Python `k in d` for an insertion-ordered dict. -/
def dictHasKey (d : List (String × α)) (k : String) : Bool :=
  match d with
  | [] => false
  | (k1, _) :: rest => if k1 = k then true else dictHasKey rest k

/-- Python `d[k]` lookup (`None`-returning form): first entry with key `k`. -/
def dictGet (d : List (String × α)) (k : String) : Option α :=
  match d with
  | [] => none
  | (k1, v) :: rest => if k1 = k then some v else dictGet rest k

/-- Python `d[k] = v`: overwrite in place when the key exists, else append
(insertion order preserved). -/
def dictSet (d : List (String × α)) (k : String) (v : α) : List (String × α) :=
  if dictHasKey d k then d.map (fun p => if p.1 = k then (k, v) else p)
  else d ++ [(k, v)]

/-- Python `d.update(other)`: set every entry of `other` in document order. -/
def dictUpdate (d other : List (String × α)) : List (String × α) :=
  other.foldl (fun acc p => dictSet acc p.1 p.2) d

/-- Loop body of `ConfigHelper.load_helper_files` (settings.py lines
248-260): `dependency_files` extends the sequence, the three mapping keys
update their dicts, and each absent key leaves its accumulator alone.  The
four Python `if` blocks touch four distinct attributes, so they are the
four independent field updates below. -/
def ConfigHelper.processDoc (acc : ConfigHelper) (doc : ConfDict) : ConfigHelper :=
  { dependency_files :=
      match doc.dependency_files with
      | some l => acc.dependency_files ++ l
      | none => acc.dependency_files
    ignore_files :=
      match doc.ignore_files with
      | some d => dictUpdate acc.ignore_files d
      | none => acc.ignore_files
    language_names :=
      match doc.language_names with
      | some d => dictUpdate acc.language_names d
      | none => acc.language_names
    language_setup :=
      match doc.language_setup with
      | some d => dictUpdate acc.language_setup d
      | none => acc.language_setup }

/-- `ConfigHelper.load_helper_files`: fold the loop body over the loaded
auxiliary documents in path-list order, starting from the helper's current
accumulators. -/
def ConfigHelper.load_helper_files (acc : ConfigHelper) (docs : List ConfDict) :
    ConfigHelper :=
  docs.foldl ConfigHelper.processDoc acc

/-- settings.py lines 216-219: `AppConfigModel.Config` sets
`validate_assignment = True`. -/
def AppConfigModel.validate_assignment : Bool := true

/-- settings.py lines 101-124: `GitSettings` declares no model `Config`, so
pydantic's default `validate_assignment = False` applies to it. -/
def GitSettings.validate_assignment : Bool := false

/-- Modelled from pydantic v1 (the external model framework the source
builds on): `BaseModel.__setattr__` re-runs a field's validators on
assignment only when the model's own `Config` sets `validate_assignment`;
otherwise the raw value is stored unchanged.  Assignment to
`GitSettings.repository` is therefore governed by
`GitSettings.validate_assignment`, not by the flag on the enclosing
`AppConfigModel`. -/
def GitSettings.assign_repository (isDir : Bool) (st : GitSettings)
    (value : String) : Except String GitSettings :=
  if GitSettings.validate_assignment then
    match GitSettings.validate_repository isDir value with
    | .error e => .error e
    | .ok v => .ok { st with repository := v }
  else .ok { st with repository := value }

/-- Split a character list on a delimiter character (Python `s.split(d)`):
used only to state the spec's wording of name derivation. -/
def splitOnChar (d : Char) : List Char → List (List Char)
  | [] => [[]]
  | c :: rest =>
    let r := splitOnChar d rest
    if c = d then [] :: r else (c :: r.headD []) :: r.tail

/-- Follows the spec's words for step 4 of name derivation (to be compared
with the source's `set_name`): split the URL path on `/`, take the last
non-empty segment, and strip a trailing `.git` suffix when present. -/
def specLastNonEmptySegment (path : List Char) : List Char :=
  let last := (((splitOnChar '/' path).filter (fun s => !s.isEmpty)).getLast?).getD []
  if isPrefixL (".git".data.reverse) last.reverse then last.take (last.length - 4)
  else last

/-! ## Helper lemmas -/

theorem find_of_any {α : Type} (l : List α) (p : α → Bool) (h : l.any p = true) :
    ∃ x, l.find? p = some x := by
  induction l with
  | nil => simp at h
  | cons a t ih =>
    by_cases hp : p a = true
    · exact ⟨a, by simp [List.find?, hp]⟩
    · have hb : p a = false := by revert hp; cases p a <;> simp
      have ht : t.any p = true := by simpa [List.any_cons, hb] using h
      obtain ⟨x, hx⟩ := ih ht
      exact ⟨x, by simp [List.find?, hb, hx]⟩

theorem resolve_url_ok (repo : String) (u : SplitResult) (s : GitServiceDescriptor)
    (hp : pyUrlsplit repo.data = some u) (hs : u.scheme = "https".data)
    (hf : gitServices.find? (fun x => containsSub x.host.data u.netloc) = some s) :
    GitSettings.resolve false repo =
      .ok ⟨repo, s.host, String.mk (nameFromPath u.path)⟩ := by
  have hps := List.find?_some hf
  have hmem := List.mem_of_find?_eq_some hf
  have hm : hostMatch u.netloc = true := by
    rw [hostMatch, List.any_eq_true]
    exact ⟨s, hmem, hps⟩
  have h1 : GitSettings.validate_repository false repo = .ok repo := by
    unfold GitSettings.validate_repository
    simp [hp, hs, hm]
  have h2 : GitSettings.set_source false repo = .ok s.host := by
    unfold GitSettings.set_source
    simp [hp, hf]
  have h3 : GitSettings.set_name repo = .ok (String.mk (nameFromPath u.path)) := by
    unfold GitSettings.set_name
    simp [hp, hf]
  simp [GitSettings.resolve, h1, h2, h3]

theorem resolve_url_error (repo : String) (u : SplitResult)
    (hp : pyUrlsplit repo.data = some u)
    (hc : ¬(u.scheme = "https".data ∧ hostMatch u.netloc = true)) :
    GitSettings.resolve false repo =
      .error ("Invalid repository URL or path: " ++ repo) := by
  have h1 : GitSettings.validate_repository false repo =
      .error ("Invalid repository URL or path: " ++ repo) := by
    unfold GitSettings.validate_repository
    simp only [Bool.false_eq_true, if_false, hp]
    rw [if_neg hc]
  simp [GitSettings.resolve, h1]

/-! ## Claim theorems -/

/-- Claim C1: for the input repository string
"https://github.com/eli64s/readme-ai" (not an existing local directory),
constructing a `GitSettings` via `resolve` succeeds and yields
source = "github.com" and name = "readme-ai". -/
theorem C1_resolve_github_example :
    GitSettings.resolve false ("https://github.com/eli64s/readme-ai") =
      .ok ⟨"https://github.com/eli64s/readme-ai", "github.com", "readme-ai"⟩ := rfl

/-- Claim C4: `buildFileUrl` applied to filePath "readmeai/main.py",
fullName "eli64s/readme-ai" and repository
"https://github.com/eli64s/readme-ai" returns exactly the GitHub blob URL,
by substituting into the GitHub descriptor's file-URL template. -/
theorem C4_remote_file_url_github :
    get_remote_file_url ("readmeai/main.py") ("eli64s/readme-ai")
      ("https://github.com/eli64s/readme-ai") =
    .ok ("https://github.com/eli64s/readme-ai/blob/main/readmeai/main.py") := rfl

/-- Claim C10: the https URL "https://localhost/eli64s/readme-ai" names no
registered hosting service ("localhost" is not a registry host), yet
`resolve` accepts it and returns source = "local": the LOCAL sentinel's
host "local" participates in substring matching and is first in registry
order. -/
theorem C10_localhost_matches_local_sentinel :
    GitSettings.resolve false ("https://localhost/eli64s/readme-ai") =
      .ok ⟨"https://localhost/eli64s/readme-ai", "local", "readme-ai"⟩ ∧
    "local" = GitService.LOCAL.host ∧
    ("localhost" : String) ∉ gitServices.map GitServiceDescriptor.host := by
  refine ⟨rfl, rfl, ?_⟩
  decide

/-- Claim C2, counterexample: the https URL
"https://github.com/eli64s/readme-ai/" matches the GitHub service, its
path's last non-empty segment is "readme-ai", but the code derives
name = "" (the part after the final "/"), so the derived name is not the
last non-empty segment of the path. -/
theorem C2_counterexample_trailing_slash :
    GitSettings.resolve false ("https://github.com/eli64s/readme-ai/") =
      .ok ⟨"https://github.com/eli64s/readme-ai/", "github.com", ""⟩ ∧
    String.mk (specLastNonEmptySegment (("/eli64s/readme-ai/").data)) = "readme-ai" ∧
    ("" : String) ≠ "readme-ai" := by
  refine ⟨rfl, rfl, ?_⟩
  decide

/-- Claim C2 (amended): for every repository string whose parse succeeds
with scheme "https" and whose netloc contains some registered host,
`resolve` succeeds and the derived name is the portion of the URL path
after the final "/" (the whole path when it has no "/", hence empty when
the path ends with "/"), with a trailing ".git" suffix of exactly 4
characters stripped when present (`nameFromPath`). -/
theorem C2_amended_name_after_last_slash (repo : String) (u : SplitResult)
    (hp : pyUrlsplit repo.data = some u) (hs : u.scheme = "https".data)
    (hm : ∃ s ∈ gitServices, containsSub s.host.data u.netloc = true) :
    ∃ st, GitSettings.resolve false repo = .ok st ∧
      st.name = String.mk (nameFromPath u.path) := by
  have hm2 : hostMatch u.netloc = true := by
    rw [hostMatch, List.any_eq_true]
    exact hm
  obtain ⟨s, hf⟩ := find_of_any _ _ hm2
  exact ⟨_, resolve_url_ok repo u s hp hs hf, rfl⟩

/-- Witness for C2 (amended): ".../eli64s/readme-ai.git" resolves with a
name equal to `nameFromPath` of its path, which evaluates to "readme-ai"
(the ".git" suffix is stripped). -/
theorem C2_amended_witness :
    (∃ st, GitSettings.resolve false ("https://github.com/eli64s/readme-ai.git") =
        .ok st ∧ st.name = String.mk (nameFromPath (("/eli64s/readme-ai.git").data))) ∧
    String.mk (nameFromPath (("/eli64s/readme-ai.git").data)) = "readme-ai" :=
  ⟨C2_amended_name_after_last_slash ("https://github.com/eli64s/readme-ai.git")
      ⟨("https").data, ("github.com").data, ("/eli64s/readme-ai.git").data⟩ rfl rfl
      ⟨GitService.GITHUB, by decide, by decide⟩, rfl⟩

/-- Claim C7: an auxiliary document containing none of the four recognized
keys leaves all four accumulators exactly unchanged (and the merge step is
total: no error is raised). -/
theorem C7_unrecognized_doc_is_noop (acc : ConfigHelper) (doc : ConfDict)
    (h1 : doc.dependency_files = none) (h2 : doc.ignore_files = none)
    (h3 : doc.language_names = none) (h4 : doc.language_setup = none) :
    ConfigHelper.processDoc acc doc = acc := by
  cases acc
  simp [ConfigHelper.processDoc, h1, h2, h3, h4]

/-- Witness for C7 at a concrete non-empty accumulator and the empty
document. -/
theorem C7_witness :
    ConfigHelper.processDoc
      ⟨["package.json"], [("r", ["a"])], [("py", "Python")], []⟩
      ⟨none, none, none, none⟩ =
      ⟨["package.json"], [("r", ["a"])], [("py", "Python")], []⟩ :=
  C7_unrecognized_doc_is_noop _ _ rfl rfl rfl rfl

/-- Claim C9, counterexample: reassigning the git sub-section's
`repository` field after load does not re-run validation.  Starting from
the loaded settings for the GitHub URL, assigning the non-HTTPS string
"http://github.com/eli64s/readme-ai" succeeds and stores the raw value,
although `validate_repository` rejects that same string at load time. -/
theorem C9_counterexample_nested_assignment_unvalidated :
    GitSettings.assign_repository false
      ⟨"https://github.com/eli64s/readme-ai", "github.com", "readme-ai"⟩
      ("http://github.com/eli64s/readme-ai") =
      .ok ⟨"http://github.com/eli64s/readme-ai", "github.com", "readme-ai"⟩ ∧
    GitSettings.validate_repository false ("http://github.com/eli64s/readme-ai") =
      .error ("Invalid repository URL or path: " ++ "http://github.com/eli64s/readme-ai") :=
  ⟨rfl, rfl⟩

/-- Claim C9 (amended): reassigning a field of a nested sub-model of the
loaded configuration does not re-run that field's validation: assignment
to `GitSettings.repository` always succeeds and stores the raw value
unchanged, because `validate_assignment` is declared only on the
`AppConfigModel` wrapper, not on `GitSettings`. -/
theorem C9_amended_assignment_stores_raw_value (isDir : Bool)
    (st : GitSettings) (value : String) :
    GitSettings.assign_repository isDir st value =
      .ok { st with repository := value } := rfl

/-- Claim C3: for a repository string that is not an existing local
directory and whose URL parse succeeds, `resolve` fails with the
InvalidRepositoryReference error exactly when the parsed scheme is not
"https" or the netloc contains no registered host substring; conversely an
https URL whose netloc contains some registered host is accepted. -/
theorem C3_invalid_reference_iff (repo : String) (u : SplitResult)
    (hp : pyUrlsplit repo.data = some u) :
    (GitSettings.resolve false repo =
        .error ("Invalid repository URL or path: " ++ repo) ↔
      (u.scheme ≠ "https".data ∨
        ∀ s ∈ gitServices, containsSub s.host.data u.netloc = false)) ∧
    ((u.scheme = "https".data ∧
        ∃ s ∈ gitServices, containsSub s.host.data u.netloc = true) →
      ∃ st, GitSettings.resolve false repo = .ok st) := by
  constructor
  · constructor
    · intro h
      by_contra hc
      push_neg at hc
      obtain ⟨hs, hex⟩ := hc
      have hm : hostMatch u.netloc = true := by
        rw [hostMatch, List.any_eq_true]
        obtain ⟨s, hsmem, hne⟩ := hex
        refine ⟨s, hsmem, ?_⟩
        revert hne
        cases containsSub s.host.data u.netloc <;> simp
      obtain ⟨s, hf⟩ := find_of_any _ _ hm
      rw [resolve_url_ok repo u s hp hs hf] at h
      simp at h
    · intro h
      apply resolve_url_error repo u hp
      rintro ⟨hs, hm⟩
      rcases h with h1 | h2
      · exact h1 hs
      · rw [hostMatch, List.any_eq_true] at hm
        obtain ⟨s, hsmem, hps⟩ := hm
        rw [h2 s hsmem] at hps
        exact Bool.noConfusion hps
  · rintro ⟨hs, s, hsmem, hsub⟩
    have hm : hostMatch u.netloc = true := by
      rw [hostMatch, List.any_eq_true]
      exact ⟨s, hsmem, hsub⟩
    obtain ⟨s0, hf⟩ := find_of_any _ _ hm
    exact ⟨_, resolve_url_ok repo u s0 hp hs hf⟩

/-- Witness for C3 at the non-HTTPS URL
"http://github.com/eli64s/readme-ai" (parse succeeds, scheme "http"). -/
theorem C3_witness :
    (GitSettings.resolve false ("http://github.com/eli64s/readme-ai") =
        .error ("Invalid repository URL or path: " ++ "http://github.com/eli64s/readme-ai") ↔
      ((("http").data ≠ ("https").data) ∨
        ∀ s ∈ gitServices, containsSub s.host.data (("github.com").data) = false)) ∧
    (((("http").data = ("https").data) ∧
        ∃ s ∈ gitServices, containsSub s.host.data (("github.com").data) = true) →
      ∃ st, GitSettings.resolve false ("http://github.com/eli64s/readme-ai") = .ok st) :=
  C3_invalid_reference_iff ("http://github.com/eli64s/readme-ai")
    ⟨("http").data, ("github.com").data, ("/eli64s/readme-ai").data⟩ rfl

/-- Claim C8: every successfully constructed `GitSettings` has a `source`
equal to the host of some registry entry ("local", "github.com",
"gitlab.com" or "bitbucket.org"); a construction that cannot set `source`
to a registry host fails instead. -/
theorem C8_source_in_registry (isDir : Bool) (repo : String) (st : GitSettings)
    (h : GitSettings.resolve isDir repo = .ok st) :
    st.source ∈ gitServices.map GitServiceDescriptor.host := by
  unfold GitSettings.resolve at h
  split at h
  · simp at h
  · rename_i repo1 hv
    split at h
    · simp at h
    · rename_i src hsrc
      split at h
      · simp at h
      · rename_i nm hnm
        rw [Except.ok.injEq] at h
        subst h
        unfold GitSettings.set_source at hsrc
        split at hsrc
        · rw [Except.ok.injEq] at hsrc
          rw [← hsrc]
          show GitService.LOCAL.host ∈ gitServices.map GitServiceDescriptor.host
          decide
        · split at hsrc
          · simp at hsrc
          · split at hsrc
            · rename_i s hf
              rw [Except.ok.injEq] at hsrc
              rw [← hsrc]
              exact List.mem_map_of_mem _ (List.mem_of_find?_eq_some hf)
            · simp at hsrc

/-- Witness for C8 at the GitHub example URL: its resolved source
"github.com" is a registry host. -/
theorem C8_witness :
    (GitSettings.mk "https://github.com/eli64s/readme-ai" "github.com" "readme-ai").source ∈
      gitServices.map GitServiceDescriptor.host :=
  C8_source_in_registry false ("https://github.com/eli64s/readme-ai")
    ⟨"https://github.com/eli64s/readme-ai", "github.com", "readme-ai"⟩ rfl

theorem dictGet_eq_none_of_not_mem {α : Type} (d : List (String × α)) (k : String)
    (h : k ∉ d.map Prod.fst) : dictGet d k = none := by
  induction d with
  | nil => rfl
  | cons p rest ih =>
    obtain ⟨k1, v1⟩ := p
    have hk : ¬k1 = k := by
      intro he
      exact h (by simp [he])
    have hr : k ∉ rest.map Prod.fst := by
      intro hmem
      exact h (by simp [hmem])
    simp [dictGet, hk, ih hr]

theorem dictGet_append_single {α : Type} (d : List (String × α)) (k : String) (v : α)
    (h : dictHasKey d k = false) : dictGet (d ++ [(k, v)]) k = some v := by
  induction d with
  | nil => simp [dictGet]
  | cons p rest ih =>
    obtain ⟨k1, v1⟩ := p
    by_cases hk : k1 = k
    · rw [dictHasKey] at h
      simp [hk] at h
    · rw [dictHasKey] at h
      simp only [hk, if_false] at h
      simp [dictGet, hk, ih h]

theorem dictGet_map_set {α : Type} (d : List (String × α)) (k : String) (v : α)
    (h : dictHasKey d k = true) :
    dictGet (d.map (fun p => if p.1 = k then (k, v) else p)) k = some v := by
  induction d with
  | nil => simp [dictHasKey] at h
  | cons p rest ih =>
    obtain ⟨k1, v1⟩ := p
    rw [List.map_cons]
    by_cases hk : k1 = k
    · subst hk
      rw [if_pos (show (k1, v1).1 = k1 from rfl)]
      simp [dictGet]
    · rw [dictHasKey] at h
      simp only [hk, if_false] at h
      rw [if_neg (show ¬(k1, v1).1 = k from hk)]
      simp only [dictGet]
      rw [if_neg hk]
      exact ih h

theorem dictGet_dictSet_self {α : Type} (d : List (String × α)) (k : String) (v : α) :
    dictGet (dictSet d k v) k = some v := by
  unfold dictSet
  by_cases h : dictHasKey d k = true
  · rw [if_pos h]
    exact dictGet_map_set d k v h
  · have hf : dictHasKey d k = false := by
      revert h
      cases dictHasKey d k <;> simp
    rw [if_neg (by simp [hf])]
    exact dictGet_append_single d k v hf

theorem dictGet_map_set_ne {α : Type} (d : List (String × α)) (k : String) (v : α)
    (k2 : String) (h : k2 ≠ k) :
    dictGet (d.map (fun p => if p.1 = k then (k, v) else p)) k2 = dictGet d k2 := by
  induction d with
  | nil => rfl
  | cons p rest ih =>
    obtain ⟨k1, v1⟩ := p
    rw [List.map_cons]
    by_cases hk : k1 = k
    · subst hk
      rw [if_pos (show (k1, v1).1 = k1 from rfl)]
      simp only [dictGet]
      rw [if_neg (fun he => h he.symm), if_neg (fun he => h he.symm)]
      exact ih
    · rw [if_neg (show ¬(k1, v1).1 = k from hk)]
      simp only [dictGet]
      by_cases hk2 : k1 = k2
      · rw [if_pos hk2, if_pos hk2]
      · rw [if_neg hk2, if_neg hk2]
        exact ih

theorem dictGet_append_single_ne {α : Type} (d : List (String × α)) (k : String)
    (v : α) (k2 : String) (h : k2 ≠ k) :
    dictGet (d ++ [(k, v)]) k2 = dictGet d k2 := by
  induction d with
  | nil =>
    simp only [List.nil_append, dictGet]
    rw [if_neg (fun he => h he.symm)]
  | cons p rest ih =>
    obtain ⟨k1, v1⟩ := p
    rw [List.cons_append]
    simp only [dictGet]
    by_cases hk : k1 = k2
    · rw [if_pos hk, if_pos hk]
    · rw [if_neg hk, if_neg hk]
      exact ih

theorem dictGet_dictSet_ne {α : Type} (d : List (String × α)) (k : String) (v : α)
    (k2 : String) (h : k2 ≠ k) :
    dictGet (dictSet d k v) k2 = dictGet d k2 := by
  unfold dictSet
  split
  · exact dictGet_map_set_ne d k v k2 h
  · exact dictGet_append_single_ne d k v k2 h

theorem dictGet_dictUpdate {α : Type} (d other : List (String × α)) (k : String)
    (hn : (other.map Prod.fst).Nodup) :
    dictGet (dictUpdate d other) k =
      match dictGet other k with
      | some v => some v
      | none => dictGet d k := by
  induction other generalizing d with
  | nil => rfl
  | cons p rest ih =>
    obtain ⟨k1, v1⟩ := p
    have hn1 : k1 ∉ rest.map Prod.fst := by
      rw [List.map_cons, List.nodup_cons] at hn
      exact hn.1
    have hnr : (rest.map Prod.fst).Nodup := by
      rw [List.map_cons, List.nodup_cons] at hn
      exact hn.2
    have hstep : dictUpdate d ((k1, v1) :: rest) = dictUpdate (dictSet d k1 v1) rest := rfl
    rw [hstep, ih _ hnr]
    by_cases hk : k1 = k
    · subst hk
      rw [dictGet_eq_none_of_not_mem rest k1 hn1]
      simp [dictGet, dictGet_dictSet_self]
    · rw [dictGet_dictSet_ne d k1 v1 k (fun he => hk he.symm)]
      simp [dictGet, hk]

/-- Claim C5: merging two auxiliary documents that both define
`language_names` (each a mapping, so with unique keys) yields, for every
key, the second document's value when the key is present there
(last-write-wins) and otherwise the first document's value; keys present in
neither stay absent. -/
theorem C5_language_names_last_write_wins (doc1 doc2 : ConfDict)
    (d1 d2 : List (String × String))
    (h1 : doc1.language_names = some d1) (h2 : doc2.language_names = some d2)
    (hn1 : (d1.map Prod.fst).Nodup) (hn2 : (d2.map Prod.fst).Nodup) (k : String) :
    dictGet (ConfigHelper.empty.load_helper_files [doc1, doc2]).language_names k =
      match dictGet d2 k with
      | some v => some v
      | none => dictGet d1 k := by
  have hl : (ConfigHelper.empty.load_helper_files [doc1, doc2]).language_names =
      dictUpdate (dictUpdate [] d1) d2 := by
    simp [ConfigHelper.load_helper_files, List.foldl, ConfigHelper.processDoc,
      ConfigHelper.empty, h1, h2]
  rw [hl, dictGet_dictUpdate _ _ _ hn2, dictGet_dictUpdate _ _ _ hn1]
  cases dictGet d2 k <;> cases dictGet d1 k <;> simp [dictGet]

/-- Witness for C5: the overlapping key "py" takes the second document's
value "Python3"; the evaluation also exhibits the non-overlapping keys. -/
theorem C5_witness :
    dictGet (ConfigHelper.empty.load_helper_files
      [⟨none, none, some [("py", "Python"), ("rb", "Ruby")], none⟩,
       ⟨none, none, some [("py", "Python3"), ("go", "Go")], none⟩]).language_names
      ("py") = some ("Python3") :=
  C5_language_names_last_write_wins
    ⟨none, none, some [("py", "Python"), ("rb", "Ruby")], none⟩
    ⟨none, none, some [("py", "Python3"), ("go", "Go")], none⟩
    [("py", "Python"), ("rb", "Ruby")] [("py", "Python3"), ("go", "Go")]
    rfl rfl (by decide) (by decide) ("py")

theorem load_helper_dep {docs : List ConfDict} {acc : ConfigHelper} :
    (acc.load_helper_files docs).dependency_files =
      acc.dependency_files ++ (docs.filterMap ConfDict.dependency_files).flatten := by
  induction docs generalizing acc with
  | nil => simp [ConfigHelper.load_helper_files]
  | cons d rest ih =>
    have hstep : acc.load_helper_files (d :: rest) =
        (acc.processDoc d).load_helper_files rest := rfl
    rw [hstep, ih]
    cases hd : d.dependency_files with
    | none => simp [ConfigHelper.processDoc, hd, List.filterMap_cons]
    | some l => simp [ConfigHelper.processDoc, hd, List.filterMap_cons, List.append_assoc]

/-- Claim C6: for every sequence of auxiliary documents, the merged
`dependency_files` sequence is the concatenation, in document-processing
order and preserving duplicates, of the `dependency_files` sequences of
exactly the documents that define one (append, never replace) — in
particular when the key appears in two or more documents, all their entries
appear in order. -/
theorem C6_dependency_files_append (docs : List ConfDict) :
    (ConfigHelper.empty.load_helper_files docs).dependency_files =
      (docs.filterMap ConfDict.dependency_files).flatten := by
  rw [load_helper_dep]
  rfl
